import Mathlib

/-!
# Simulated Minimum Distance estimator — shallow embedding

Embedding of the SMD estimation engine of `src/12/SMD.ipynb`: the structural
closed-form solution (`c_star`, `l_star`), the moment function
(`moments_fun`, the notebook's lambda built from `np.corrcoef`, `np.mean`,
`np.var`), the empirical wage generation (`wages`), and the simulated
objective (`obj_fun`, whose body lives in the repository's `model.py`, a file
not among the sources; it is modelled from the spec where so marked).
Machine floats are embedded as real numbers; a float NaN arising from a
division whose denominator is zero corresponds to Lean's junk value of
division by zero.
-/

noncomputable section

namespace SMD

/-- Parameter record: the notebook's `par` dictionary with keys
`gamma`, `tau`, `sigma`. -/
structure Pars where
  gamma : ℝ
  tau : ℝ
  sigma : ℝ

/-- Closed-form optimal consumption from the notebook:
`c_star(w, e; par) = gamma*(1-tau)*w + gamma*e`. -/
def c_star (w e : ℝ) (par : Pars) : ℝ :=
  par.gamma * (1 - par.tau) * w + par.gamma * e

/-- Closed-form choice from the notebook:
`l_star(w, e; par) = (1-gamma) + (1-gamma)*e/((1-tau)*w)`; the notebook
stores its value as the column `lab` of the dataset. -/
def l_star (w e : ℝ) (par : Pars) : ℝ :=
  (1 - par.gamma) + (1 - par.gamma) * e / ((1 - par.tau) * w)

variable {ι : Type} [Fintype ι]

/-- Arithmetic mean of a finite family, `np.mean`. -/
def mean (x : ι → ℝ) : ℝ := (∑ i, x i) / (Fintype.card ι)

/-- Sum of products of deviations from the mean: the common numerator of
`np.cov` / `np.corrcoef` entries (the `1/(n-ddof)` factor cancels in the
correlation coefficient). -/
def covS (x y : ι → ℝ) : ℝ := ∑ i, (x i - mean x) * (y i - mean y)

/-- Pearson correlation coefficient, `np.corrcoef(x, y)[0, 1]`:
the off-diagonal covariance entry divided by the product of the square roots
of the diagonal entries. -/
def corrcoef (x y : ι → ℝ) : ℝ :=
  covS x y / (Real.sqrt (covS x x) * Real.sqrt (covS y y))

/-- Population variance, `np.var` with its default `ddof = 0`:
mean squared deviation from the mean, dividing by `N`. -/
def var (x : ι → ℝ) : ℝ := (∑ i, (x i - mean x) ^ 2) / (Fintype.card ι)

/-- The notebook's moment function
`moments_fun = lambda w,con,lab: np.array([np.corrcoef(w,con)[0,1],
np.mean(lab), np.var(con)])`; it is the single function applied to the
empirical dataset (`mom_data`) and, inside the objective, to the simulated
dataset. -/
def moments_fun (w con lab : ι → ℝ) : ℝ × ℝ × ℝ :=
  (corrcoef w con, mean lab, var con)

/-- Empirical wages from the notebook: `w = np.exp(np.random.normal(size=n))`,
with the standard-normal draws `xi` abstracted as an explicit input (the RNG
is outside the spec's scope). -/
def wages {n : ℕ} (xi : Fin n → ℝ) : Fin n → ℝ := fun i => Real.exp (xi i)

open Classical in
/-- Modelled from the spec: the error-signaling moment computation the spec
describes for degenerate input (a dataset with at most one observation or
zero variance signals a numerical-degeneracy error instead of silently
producing NaN); the repository's source `moments_fun` has no such check. -/
def momentsChecked {n : ℕ} (w c l : Fin n → ℝ) : Option (ℝ × ℝ × ℝ) :=
  if n ≤ 1 ∨ var w = 0 ∨ var c = 0 then none else some (moments_fun w c l)

/-- Names of the structural parameters, the entries of the notebook's
`est_par` list. -/
inductive ParName
  | gamma
  | tau
  | sigma

/-- Overwrite one named field of a parameter record. -/
def setPar (p : Pars) : ParName → ℝ → Pars
  | .gamma, v => { p with gamma := v }
  | .tau, v => { p with tau := v }
  | .sigma, v => { p with sigma := v }

/-- Modelled from the spec: step 1 of the objective (`model.obj_fun` lives in
the repository's `model.py`, which is not among the source files) — merge the
optimizer-proposed values `theta` into a copy of the base parameters,
overwriting the entries named in `est` positionally. -/
def mergePars (base : Pars) (est : List ParName) (theta : List ℝ) : Pars :=
  (List.zip est theta).foldl (fun p nv => setPar p nv.1 nv.2) base

/-- Modelled from the spec: the very large finite penalty the objective
returns when parameter values push the structural model into a non-finite
region. -/
def penaltyValue : ℝ := 10 ^ 10

/-- The wage vector repeated across the `S` simulation replications:
the stacked `n*S` wage column. -/
def simWages {n S : ℕ} (w : Fin n → ℝ) : Fin S × Fin n → ℝ := fun p => w p.2

/-- The stacked simulated shock column: standard-normal draws `eta` scaled
by the candidate `sigma` (the notebook draws `e = par['sigma'] *
np.random.normal(...)`). -/
def simShocks {n S : ℕ} (eta : Fin S × Fin n → ℝ) (par : Pars) :
    Fin S × Fin n → ℝ := fun p => par.sigma * eta p

/-- Moments of the synthetic dataset: the moment function applied to the
stacked `n*S` simulated observations generated by the structural model. -/
def simMoments {n S : ℕ}
    (momFn : (Fin S × Fin n → ℝ) → (Fin S × Fin n → ℝ) → (Fin S × Fin n → ℝ) → ℝ × ℝ × ℝ)
    (w : Fin n → ℝ) (eta : Fin S × Fin n → ℝ) (par : Pars) : ℝ × ℝ × ℝ :=
  momFn (simWages w)
    (fun p => c_star (simWages w p) (simShocks eta par p) par)
    (fun p => l_star (simWages w p) (simShocks eta par p) par)

/-- Squared Euclidean distance between two moment vectors,
`sum((mom_data - mom_sim)**2)`. -/
def sqdist (a b : ℝ × ℝ × ℝ) : ℝ :=
  (a.1 - b.1) ^ 2 + (a.2.1 - b.2.1) ^ 2 + (a.2.2 - b.2.2) ^ 2

open Classical in
/-- Modelled from the spec: `model.obj_fun(theta, est_par, w, mom_data,
moments_fun, par)` of the repository's `model.py` (not among the source
files), following spec steps 1–5 with the spec's boundary policy: merge
`theta` over the base parameters, simulate the stacked dataset from the
pre-drawn standard-normal `eta` (the RNG is passed explicitly), apply the
moment function, and return the squared Euclidean distance to the empirical
moments — or the defined large finite penalty when the merged tax rate
reaches the non-finite region `tau ≥ 1`. -/
def obj_fun {n S : ℕ} (theta : List ℝ) (est : List ParName) (w : Fin n → ℝ)
    (mom_data : ℝ × ℝ × ℝ)
    (momFn : (Fin S × Fin n → ℝ) → (Fin S × Fin n → ℝ) → (Fin S × Fin n → ℝ) → ℝ × ℝ × ℝ)
    (eta : Fin S × Fin n → ℝ) (base : Pars) : ℝ :=
  if 1 ≤ (mergePars base est theta).tau then penaltyValue
  else sqdist mom_data (simMoments momFn w eta (mergePars base est theta))

/-- Concrete wage vector of the scaling counterexample. -/
def wv : Fin 3 → ℝ := ![1, 2, 4]

/-- Concrete shock vector of the scaling counterexample. -/
def ev : Fin 3 → ℝ := ![1, 0, -1]

/-- With `gamma = 1/2`, `tau = 0`, consumption on `wv, ev` is `(1/2) * yv`. -/
def yv : Fin 3 → ℝ := ![2, 2, 3]

/-- With wages doubled, consumption on `2*wv, ev` is `gamma * zv`. -/
def zv : Fin 3 → ℝ := ![3, 4, 7]

/-! ## Helper lemmas -/

/-- The mean is invariant under precomposition with a permutation. -/
lemma mean_comp_perm (π : Equiv.Perm ι) (x : ι → ℝ) : mean (x ∘ π) = mean x := by
  unfold mean
  rw [show (∑ i, (x ∘ π) i) = ∑ i, x (π i) from rfl, Equiv.sum_comp]

/-- The deviation cross-sum is invariant under simultaneous precomposition
with a permutation. -/
lemma covS_comp_perm (π : Equiv.Perm ι) (x y : ι → ℝ) :
    covS (x ∘ π) (y ∘ π) = covS x y := by
  unfold covS
  rw [mean_comp_perm, mean_comp_perm]
  exact Equiv.sum_comp π (fun j => (x j - mean x) * (y j - mean y))

/-- The population variance is invariant under precomposition with a
permutation. -/
lemma var_comp_perm (π : Equiv.Perm ι) (x : ι → ℝ) : var (x ∘ π) = var x := by
  unfold var
  rw [mean_comp_perm,
    show (∑ i, ((x ∘ π) i - mean x) ^ 2) = ∑ i, (x (π i) - mean x) ^ 2 from rfl,
    Equiv.sum_comp π (fun j => (x j - mean x) ^ 2)]

/-- Multiplying every entry by a constant multiplies the mean by it. -/
lemma mean_const_mul (c : ℝ) (x : ι → ℝ) :
    mean (fun i => c * x i) = c * mean x := by
  unfold mean
  rw [← Finset.mul_sum, mul_div_assoc]

/-- Scaling the second argument scales the deviation cross-sum. -/
lemma covS_const_mul_right (c : ℝ) (x y : ι → ℝ) :
    covS x (fun i => c * y i) = c * covS x y := by
  unfold covS
  rw [mean_const_mul, Finset.mul_sum]
  refine Finset.sum_congr rfl fun _ _ => by ring

/-- The deviation cross-sum is symmetric. -/
lemma covS_comm (x y : ι → ℝ) : covS x y = covS y x :=
  Finset.sum_congr rfl fun _ _ => mul_comm _ _

/-- Scaling a vector scales its deviation self-sum by the square. -/
lemma covS_self_const_mul (c : ℝ) (y : ι → ℝ) :
    covS (fun i => c * y i) (fun i => c * y i) = c ^ 2 * covS y y := by
  rw [covS_const_mul_right c _ y, covS_comm, covS_const_mul_right c y y]
  ring

/-- Pearson correlation is invariant under multiplying the second vector by
a positive constant. -/
lemma corrcoef_const_mul_right_pos {c : ℝ} (hc : 0 < c) (x y : ι → ℝ) :
    corrcoef x (fun i => c * y i) = corrcoef x y := by
  unfold corrcoef
  rw [covS_const_mul_right, covS_self_const_mul,
    Real.sqrt_mul (sq_nonneg c), Real.sqrt_sq_eq_abs, abs_of_pos hc,
    show Real.sqrt (covS x x) * (c * Real.sqrt (covS y y)) =
      c * (Real.sqrt (covS x x) * Real.sqrt (covS y y)) from by ring,
    mul_div_mul_left _ _ (ne_of_gt hc)]

/-- Pearson correlation is negated under multiplying the second vector by a
negative constant. -/
lemma corrcoef_const_mul_right_neg {c : ℝ} (hc : c < 0) (x y : ι → ℝ) :
    corrcoef x (fun i => c * y i) = -corrcoef x y := by
  unfold corrcoef
  rw [covS_const_mul_right, covS_self_const_mul,
    Real.sqrt_mul (sq_nonneg c), Real.sqrt_sq_eq_abs, abs_of_neg hc,
    show Real.sqrt (covS x x) * (-c * Real.sqrt (covS y y)) =
      -(c * (Real.sqrt (covS x x) * Real.sqrt (covS y y))) from by ring,
    div_neg, mul_div_mul_left _ _ (ne_of_lt hc)]

/-- Multiplying the second vector by zero sends the correlation to the junk
value `0` (a `0/0`; `NaN` in floating point). -/
lemma corrcoef_zero_mul_right (x z : ι → ℝ) :
    corrcoef x (fun i => (0 : ℝ) * z i) = 0 := by
  unfold corrcoef
  rw [covS_const_mul_right]
  simp

/-- Pearson correlation is symmetric. -/
lemma corrcoef_comm (x y : ι → ℝ) : corrcoef x y = corrcoef y x := by
  unfold corrcoef
  rw [covS_comm x y, mul_comm]

/-- Pearson correlation is invariant under multiplying the first vector by a
positive constant. -/
lemma corrcoef_const_mul_left_pos {c : ℝ} (hc : 0 < c) (x y : ι → ℝ) :
    corrcoef (fun i => c * x i) y = corrcoef x y := by
  rw [corrcoef_comm, corrcoef_const_mul_right_pos hc, corrcoef_comm]

lemma covS_wv_yv : covS wv yv = 5/3 := by
  simp [covS, mean, wv, yv, Fin.sum_univ_succ]
  norm_num

lemma covS_wv_wv : covS wv wv = 14/3 := by
  simp [covS, mean, wv, Fin.sum_univ_succ]
  norm_num

lemma covS_yv_yv : covS yv yv = 2/3 := by
  simp [covS, mean, yv, Fin.sum_univ_succ]
  norm_num

lemma covS_wv_zv : covS wv zv = 19/3 := by
  simp [covS, mean, wv, zv, Fin.sum_univ_succ]
  norm_num

lemma covS_zv_zv : covS zv zv = 26/3 := by
  simp [covS, mean, zv, Fin.sum_univ_succ]
  norm_num

lemma corr_wv_yv_pos : 0 < corrcoef wv yv := by
  unfold corrcoef
  rw [covS_wv_yv, covS_wv_wv, covS_yv_yv]
  positivity

lemma corr_wv_zv_pos : 0 < corrcoef wv zv := by
  unfold corrcoef
  rw [covS_wv_zv, covS_wv_wv, covS_zv_zv]
  positivity

lemma corr_wv_yv_sq : corrcoef wv yv ^ 2 = 25/28 := by
  unfold corrcoef
  rw [covS_wv_yv, covS_wv_wv, covS_yv_yv, div_pow, mul_pow,
    Real.sq_sqrt (by norm_num : (0:ℝ) ≤ 14/3),
    Real.sq_sqrt (by norm_num : (0:ℝ) ≤ 2/3)]
  norm_num

lemma corr_wv_zv_sq : corrcoef wv zv ^ 2 = 361/364 := by
  unfold corrcoef
  rw [covS_wv_zv, covS_wv_wv, covS_zv_zv, div_pow, mul_pow,
    Real.sq_sqrt (by norm_num : (0:ℝ) ≤ 14/3),
    Real.sq_sqrt (by norm_num : (0:ℝ) ≤ 26/3)]
  norm_num

/-! ## Claims -/

/-- C2. The structural consumption function returns
`gamma*(1-tau)*w + gamma*eps` for every real wage, shock and parameters,
and with zero shock it returns `gamma*(1-tau)*w`. -/
theorem c_star_closed_form (w e : ℝ) (par : Pars) :
    c_star w e par = par.gamma * (1 - par.tau) * w + par.gamma * e ∧
      c_star w 0 par = par.gamma * (1 - par.tau) * w := by
  refine ⟨rfl, ?_⟩
  simp [c_star]

/-- C1, counterexample. The claim says the structural labor function returns
`1 - [(1-gamma) + (1-gamma)*eps/((1-tau)*w)]`, hence `1 - (1-gamma) = gamma`
at zero shock. At `gamma = 1/4`, `tau = 0`, `w = 1`, `eps = 0` the source's
`l_star` returns `(1-gamma) = 3/4`, not `1 - (1-gamma) = 1/4`. -/
theorem l_star_not_one_minus_leisure :
    l_star 1 0 ⟨1/4, 0, 1⟩ ≠ 1 - ((1 - (1/4 : ℝ)) + (1 - 1/4) * 0 / ((1 - 0) * 1)) := by
  simp only [l_star]
  norm_num

/-- C1, amended. For every wage `w > 0`, tax rate `tau < 1` and shock `eps`,
the source's `l_star` returns the leisure expression
`(1-gamma) + (1-gamma)*eps/((1-tau)*w)` itself (the notebook stores this
value as the labor column `lab`); with zero shock it returns `1 - gamma`,
not `gamma`. -/
theorem l_star_leisure_form (w e : ℝ) (par : Pars) (hw : 0 < w)
    (ht : par.tau < 1) :
    l_star w e par = (1 - par.gamma) + (1 - par.gamma) * e / ((1 - par.tau) * w) ∧
      l_star w 0 par = 1 - par.gamma := by
  refine ⟨rfl, ?_⟩
  simp [l_star]

/-- C1, witness for `l_star_leisure_form` at `w = 2`, `eps = 5`,
`gamma = 1/4`, `tau = 1/2`. -/
theorem l_star_leisure_form_witness :
    l_star 2 5 ⟨1/4, 1/2, 1⟩ = (1 - (1/4 : ℝ)) + (1 - 1/4) * 5 / ((1 - 1/2) * 2) ∧
      l_star 2 0 ⟨1/4, 1/2, 1⟩ = 1 - (1/4 : ℝ) :=
  l_star_leisure_form 2 5 ⟨1/4, 1/2, 1⟩ (by norm_num) (by norm_num)

/-- C3. On every triple of equal-length vectors the moment function returns
exactly three statistics in the fixed order: Pearson correlation of wages and
consumption, mean of labor, population variance of consumption. One single
function computes both the empirical moments (`mom_data` in the notebook) and
the simulated moments inside the objective, so the order matches. -/
theorem moments_fun_order (n : ℕ) (w c l : Fin n → ℝ) :
    moments_fun w c l =
      (covS w c / (Real.sqrt (covS w w) * Real.sqrt (covS c c)),
        (∑ i, l i) / n,
        (∑ i, (c i - mean c) ^ 2) / n) := by
  simp [moments_fun, corrcoef, mean, var]

/-- C9. The variance entry uses the population convention of `np.var`
(`ddof = 0`): for every vector of length `N ≥ 1` it is the mean of the
squared deviations from the sample mean, i.e. `N * var` recovers the sum of
squared deviations (division by `N`, not `N - 1`); the same `var` is the
third component of `moments_fun`, hence the identical convention applies to
empirical and simulated data. -/
theorem var_population_convention (n : ℕ) (x : Fin n → ℝ) (hn : 1 ≤ n) :
    var x = mean (fun i => (x i - mean x) ^ 2) ∧
      (n : ℝ) * var x = ∑ i, (x i - mean x) ^ 2 := by
  refine ⟨rfl, ?_⟩
  have hn' : (n : ℝ) ≠ 0 := Nat.cast_ne_zero.mpr (by omega)
  rw [var, Fintype.card_fin, mul_comm, div_mul_cancel₀ _ hn']

/-- C9, witness for `var_population_convention` at the vector `(1, 3)`. -/
theorem var_population_convention_witness :
    var (![1, 3] : Fin 2 → ℝ) = mean (fun i => ((![1, 3] : Fin 2 → ℝ) i - mean ![1, 3]) ^ 2) ∧
      ((2 : ℕ) : ℝ) * var (![1, 3] : Fin 2 → ℝ) =
        ∑ i, ((![1, 3] : Fin 2 → ℝ) i - mean ![1, 3]) ^ 2 :=
  var_population_convention 2 ![1, 3] (by norm_num)

/-- C10. Every wage of the generated empirical dataset is the exponential of
a normal draw, hence strictly positive, and for every `tau < 1` the
denominator `(1-tau)*w` of the labor function is nonzero, so the divisions
in `c_star`/`l_star` on the empirical dataset are well defined. -/
theorem wages_pos_denom_ne_zero (n : ℕ) (xi : Fin n → ℝ) (par : Pars)
    (ht : par.tau < 1) (i : Fin n) :
    0 < wages xi i ∧ (1 - par.tau) * wages xi i ≠ 0 := by
  have hw : 0 < wages xi i := Real.exp_pos (xi i)
  exact ⟨hw, mul_ne_zero (by linarith) (ne_of_gt hw)⟩

/-- C10, witness for `wages_pos_denom_ne_zero` at `n = 1`, draw `0`,
`tau = 1/2`. -/
theorem wages_pos_denom_ne_zero_witness :
    0 < wages (![0] : Fin 1 → ℝ) 0 ∧
      (1 - (⟨1/2, 1/2, 1⟩ : Pars).tau) * wages (![0] : Fin 1 → ℝ) 0 ≠ 0 :=
  wages_pos_denom_ne_zero 1 ![0] ⟨1/2, 1/2, 1⟩ (by norm_num) 0

/-- C7. Applying one permutation simultaneously to the wage, consumption and
labor vectors leaves the moment vector unchanged. -/
theorem moments_fun_perm_invariant (n : ℕ) (π : Equiv.Perm (Fin n))
    (w c l : Fin n → ℝ) :
    moments_fun (w ∘ π) (c ∘ π) (l ∘ π) = moments_fun w c l := by
  unfold moments_fun corrcoef
  rw [covS_comp_perm, covS_comp_perm, covS_comp_perm, mean_comp_perm,
    var_comp_perm]

/-- C8, counterexample. With wages `wv = (1,2,4)`, shocks `ev = (1,0,-1)`,
`tau = 0`, true `gamma = 1/2` and scale `k = 2`: no rescaled `gamma` value
`g` makes both the wage–consumption correlation moment and the labor moment
of the dataset generated from the doubled wages (shocks held fixed) match
the original ones — the correlation moment is invariant in `g` up to sign
and already differs. -/
theorem corr_moment_not_wage_scale_invariant :
    ¬ ∃ g : ℝ,
        corrcoef (fun i => 2 * wv i) (fun i => c_star (2 * wv i) (ev i) ⟨g, 0, 1⟩)
            = corrcoef wv (fun i => c_star (wv i) (ev i) ⟨1/2, 0, 1⟩) ∧
          mean (fun i => l_star (2 * wv i) (ev i) ⟨g, 0, 1⟩)
            = mean (fun i => l_star (wv i) (ev i) ⟨1/2, 0, 1⟩) := by
  rintro ⟨g, hcorr, -⟩
  have hR : (fun i => c_star (wv i) (ev i) (⟨1/2, 0, 1⟩ : Pars))
      = fun i => (1/2 : ℝ) * yv i := by
    funext i
    fin_cases i <;> simp [c_star, wv, ev, yv] <;> norm_num
  have hL : (fun i => c_star (2 * wv i) (ev i) (⟨g, 0, 1⟩ : Pars))
      = fun i => g * zv i := by
    funext i
    fin_cases i <;> simp [c_star, wv, ev, zv, -mul_eq_mul_left_iff] <;> ring
  rw [hR, hL, corrcoef_const_mul_right_pos (by norm_num : (0:ℝ) < 1/2),
    corrcoef_const_mul_left_pos (by norm_num : (0:ℝ) < 2)] at hcorr
  rcases lt_trichotomy g 0 with hg | hg | hg
  · rw [corrcoef_const_mul_right_neg hg] at hcorr
    have h1 := corr_wv_zv_pos
    have h2 := corr_wv_yv_pos
    linarith
  · subst hg
    rw [corrcoef_zero_mul_right] at hcorr
    have h2 := corr_wv_yv_pos
    linarith
  · rw [corrcoef_const_mul_right_pos hg] at hcorr
    have h1 := corr_wv_zv_sq
    rw [hcorr, corr_wv_yv_sq] at h1
    norm_num at h1

/-- C8, amended. Multiplying every wage by `k > 0` leaves the
wage–consumption correlation moment and the labor moment of the generated
dataset unchanged when every shock is also multiplied by `k` (no rescaling
of `gamma` is needed); with the shocks held fixed, the counterexample shows
no rescaling of `gamma` preserves the correlation moment. -/
theorem moments_scaling_invariance (n : ℕ) (w e : Fin n → ℝ) (par : Pars)
    (k : ℝ) (hk : 0 < k) :
    corrcoef (fun i => k * w i) (fun i => c_star (k * w i) (k * e i) par)
        = corrcoef w (fun i => c_star (w i) (e i) par) ∧
      mean (fun i => l_star (k * w i) (k * e i) par)
        = mean (fun i => l_star (w i) (e i) par) := by
  constructor
  · have hcs : (fun i => c_star (k * w i) (k * e i) par)
        = fun i => k * c_star (w i) (e i) par := by
      funext i
      simp only [c_star]
      ring
    rw [hcs, corrcoef_const_mul_left_pos hk, corrcoef_const_mul_right_pos hk]
  · have hls : (fun i => l_star (k * w i) (k * e i) par)
        = fun i => l_star (w i) (e i) par := by
      funext i
      simp only [l_star]
      congr 1
      rw [show (1 - par.tau) * (k * w i) = k * ((1 - par.tau) * w i) from by ring,
        show (1 - par.gamma) * (k * e i) = k * ((1 - par.gamma) * e i) from by ring,
        mul_div_mul_left _ _ (ne_of_gt hk)]
    rw [hls]

/-- C8, witness for `moments_scaling_invariance` at `n = 1`, `w = (1)`,
`e = (0)`, `gamma = 1/2`, `tau = 0`, `k = 2`. -/
theorem moments_scaling_invariance_witness :
    corrcoef (fun i => 2 * (![1] : Fin 1 → ℝ) i)
        (fun i => c_star (2 * (![1] : Fin 1 → ℝ) i) (2 * (![0] : Fin 1 → ℝ) i) ⟨1/2, 0, 1⟩)
        = corrcoef (![1] : Fin 1 → ℝ)
          (fun i => c_star ((![1] : Fin 1 → ℝ) i) ((![0] : Fin 1 → ℝ) i) ⟨1/2, 0, 1⟩) ∧
      mean (fun i => l_star (2 * (![1] : Fin 1 → ℝ) i) (2 * (![0] : Fin 1 → ℝ) i) ⟨1/2, 0, 1⟩)
        = mean (fun i => l_star ((![1] : Fin 1 → ℝ) i) ((![0] : Fin 1 → ℝ) i) ⟨1/2, 0, 1⟩) :=
  moments_scaling_invariance 1 ![1] ![0] ⟨1/2, 0, 1⟩ 2 (by norm_num)

/-- C6, counterexample. On the degenerate dataset with two observations of
constant wage `(1, 1)` (zero wage variance), the source's `moments_fun`
does not signal any error: it totally returns a triple whose correlation
entry is the division-by-zero junk value `0` (in `numpy`, a silently
propagated `NaN`), while the spec's error-signaling computation
`momentsChecked` returns `none` there. -/
theorem moments_fun_total_on_degenerate :
    var (![1, 1] : Fin 2 → ℝ) = 0 ∧
      momentsChecked (![1, 1] : Fin 2 → ℝ) ![2, 3] ![0, 0] = none ∧
      moments_fun (![1, 1] : Fin 2 → ℝ) ![2, 3] ![0, 0] = (0, 0, 1/4) := by
  have hv : var (![1, 1] : Fin 2 → ℝ) = 0 := by
    simp [var, mean, Fin.sum_univ_succ]
  refine ⟨hv, ?_, ?_⟩
  · unfold momentsChecked
    rw [if_pos (Or.inr (Or.inl hv))]
  · unfold moments_fun
    refine Prod.ext ?_ (Prod.ext ?_ ?_)
    · show corrcoef (![1, 1] : Fin 2 → ℝ) ![2, 3] = 0
      unfold corrcoef
      have h0 : covS (![1, 1] : Fin 2 → ℝ) ![2, 3] = 0 := by
        simp [covS, mean, Fin.sum_univ_succ]
      rw [h0, zero_div]
    · show mean (![0, 0] : Fin 2 → ℝ) = 0
      simp [mean, Fin.sum_univ_succ]
    · show var (![2, 3] : Fin 2 → ℝ) = 1/4
      simp [var, mean, Fin.sum_univ_succ]
      norm_num

/-- C6, amended. The source's moment computation performs no degeneracy
check: on a dataset with at most one observation or zero variance it
silently returns a triple containing the indeterminate correlation (NaN in
floating point) rather than signaling a computation error; the spec's
checked computation `momentsChecked` agrees with the source exactly on the
non-degenerate inputs (length at least two and nonzero variances). -/
theorem moments_checked_agrees (n : ℕ) (w c l : Fin n → ℝ) (hn : 2 ≤ n)
    (hw : var w ≠ 0) (hc : var c ≠ 0) :
    momentsChecked w c l = some (moments_fun w c l) := by
  unfold momentsChecked
  rw [if_neg]
  push_neg
  exact ⟨by omega, hw, hc⟩

/-- C6, witness for `moments_checked_agrees` on the non-degenerate dataset
`w = (1,2)`, `c = (2,4)`, `l = (0,1)`. -/
theorem moments_checked_agrees_witness :
    momentsChecked (![1, 2] : Fin 2 → ℝ) ![2, 4] ![0, 1]
      = some (moments_fun (![1, 2] : Fin 2 → ℝ) ![2, 4] ![0, 1]) :=
  moments_checked_agrees 2 ![1, 2] ![2, 4] ![0, 1] (by norm_num)
    (by simp [var, mean, Fin.sum_univ_succ]; norm_num)
    (by simp [var, mean, Fin.sum_univ_succ]; norm_num)

/-- C4. Off the penalty region (merged `tau < 1`), the objective returns the
squared Euclidean distance between the empirical moment vector and the
moment vector of the stacked `n*S` simulated dataset, and the returned
scalar is non-negative. -/
theorem obj_fun_sq_distance (n S : ℕ) (theta : List ℝ) (est : List ParName)
    (w : Fin n → ℝ) (mom : ℝ × ℝ × ℝ)
    (momFn : (Fin S × Fin n → ℝ) → (Fin S × Fin n → ℝ) → (Fin S × Fin n → ℝ) → ℝ × ℝ × ℝ)
    (eta : Fin S × Fin n → ℝ) (base : Pars)
    (h : (mergePars base est theta).tau < 1) :
    obj_fun theta est w mom momFn eta base =
        (mom.1 - (simMoments momFn w eta (mergePars base est theta)).1) ^ 2 +
          (mom.2.1 - (simMoments momFn w eta (mergePars base est theta)).2.1) ^ 2 +
          (mom.2.2 - (simMoments momFn w eta (mergePars base est theta)).2.2) ^ 2 ∧
      0 ≤ obj_fun theta est w mom momFn eta base := by
  constructor
  · unfold obj_fun
    rw [if_neg (not_le.mpr h)]
    rfl
  · unfold obj_fun
    split_ifs
    · unfold penaltyValue
      norm_num
    · unfold sqdist
      positivity

/-- C4, witness for `obj_fun_sq_distance`: non-negativity of the objective at
the concrete instance `n = S = 1`, no estimated parameters, `w = (2)`,
empirical moments `(0,0,0)`, zero shock draw. -/
theorem obj_fun_sq_distance_witness :
    0 ≤ obj_fun [] [] (![2] : Fin 1 → ℝ) (0, 0, 0)
        (moments_fun (ι := Fin 1 × Fin 1)) (fun _ => 0) ⟨1/2, 0, 1⟩ :=
  (obj_fun_sq_distance 1 1 [] [] ![2] (0, 0, 0) moments_fun (fun _ => 0)
    ⟨1/2, 0, 1⟩ (by show (0:ℝ) < 1; norm_num)).2

/-- C5. Whenever the merged candidate tax rate satisfies `tau ≥ 1` (the
non-finite region of the structural model, e.g. `tau = 1` where the labor
function divides by zero), the objective does not evaluate the model at all:
it returns the defined large finite penalty `10^10`. -/
theorem obj_fun_penalty_at_tau_ge_one (n S : ℕ) (theta : List ℝ)
    (est : List ParName) (w : Fin n → ℝ) (mom : ℝ × ℝ × ℝ)
    (momFn : (Fin S × Fin n → ℝ) → (Fin S × Fin n → ℝ) → (Fin S × Fin n → ℝ) → ℝ × ℝ × ℝ)
    (eta : Fin S × Fin n → ℝ) (base : Pars)
    (h : 1 ≤ (mergePars base est theta).tau) :
    obj_fun theta est w mom momFn eta base = penaltyValue ∧
      penaltyValue = (10 : ℝ) ^ 10 := by
  refine ⟨?_, rfl⟩
  unfold obj_fun
  rw [if_pos h]

/-- C5, witness for `obj_fun_penalty_at_tau_ge_one`: estimating `tau` with
proposed value `1` (so the merged tax rate is exactly `1`). -/
theorem obj_fun_penalty_at_tau_ge_one_witness :
    obj_fun [1] [ParName.tau] (![1] : Fin 1 → ℝ) (0, 0, 0)
        (moments_fun (ι := Fin 1 × Fin 1)) (fun _ => 0) ⟨1/2, 0, 1⟩ = penaltyValue ∧
      penaltyValue = (10 : ℝ) ^ 10 :=
  obj_fun_penalty_at_tau_ge_one 1 1 [1] [ParName.tau] ![1] (0, 0, 0)
    moments_fun (fun _ => 0) ⟨1/2, 0, 1⟩ (by show (1:ℝ) ≤ 1; norm_num)

end SMD
